import Mathlib

/-!
Verification of the Alkemy-X OpenPype overrides delivery pipeline
(`src/openpype/modules/delivery/scripts/sg_delivery.py` and
`src/openpype/plugins/publish/extract_color_transcode.py`).

Python dictionaries that cross the JSON boundary are embedded as the
inductive `JVal` below; reports (a `collections.defaultdict(list)`) are
embedded as association lists with explicit defaultdict semantics; external
collaborators (Shotgrid session, Avalon/OpenPype store, Deadline, the
filesystem, `openpype.modules.shotgrid.lib.delivery`,
`openpype.modules.delivery.scripts.utils`) are oracle parameters carried by
environment structures, so every theorem quantifies over their replies.
-/

/-- Left brace character, written by code point to keep it out of string
literals. -/
def lbrace : Char := Char.ofNat 123

/-- Right brace character. -/
def rbrace : Char := Char.ofNat 125

/-- A JSON-representable Python value: `None`, `bool`, `int`, `str`, `list`,
`dict` (an association list, insertion ordered, as Python dicts are). -/
inductive JVal where
  | jnull
  | jbool (b : Bool)
  | jint (n : Int)
  | jstr (s : String)
  | jarr (items : List JVal)
  | jobj (pairs : List (String × JVal))

instance : Inhabited JVal := ⟨.jnull⟩

namespace JVal

/-- Python truthiness of a `JVal` (`if not x` in the source). -/
def truthy : JVal → Bool
  | jnull => false
  | jbool b => b
  | jint n => decide (n ≠ 0)
  | jstr s => decide (s ≠ "")
  | jarr [] => false
  | jarr (_ :: _) => true
  | jobj [] => false
  | jobj (_ :: _) => true

end JVal

/-- Association-list lookup, first match wins (Python dict access order is
irrelevant because dict keys are unique). -/
def llookup (k : String) : List (String × JVal) → Option JVal
  | [] => none
  | (k', v) :: tl => if k' = k then some v else llookup k tl

/-- Decimal digits of a natural number, most significant first (auxiliary,
fuelled to stay structural). -/
def natCharsAux : Nat → Nat → List Char
  | 0, _ => []
  | fuel + 1, n =>
    if n < 10 then [Nat.digitChar n]
    else natCharsAux fuel (n / 10) ++ [Nat.digitChar (n % 10)]

/-- Decimal digits of a natural number, as Python `str` renders it. -/
def natChars (n : Nat) : List Char := natCharsAux (n + 1) n

/-- Decimal rendering of a Python `int`, as `str`/`json.dump` render it. -/
def intChars (m : Int) : List Char :=
  if m < 0 then '-' :: natChars m.natAbs else natChars m.toNat

/-- Value of a list of decimal digits. -/
def readNat (ds : List Char) : Nat :=
  ds.foldl (fun a c => a * 10 + (c.toNat - 48)) 0

/-- JSON-safe character: printable ASCII that `json.dump` (with its default
`ensure_ascii=True`) writes verbatim, i.e. neither a quote, a backslash nor
a control or non-ASCII character. -/
def jsafeChar (c : Char) : Bool :=
  32 ≤ c.toNat && c.toNat ≤ 126 && c ≠ '"' && c ≠ '\\'

/-- JSON-safe string: every character is written verbatim by `json.dump`. -/
def jsafeStr (s : String) : Bool := s.toList.all jsafeChar

mutual

/-- All strings inside the value are JSON-safe. -/
def jsafe : JVal → Bool
  | .jnull => true
  | .jbool _ => true
  | .jint _ => true
  | .jstr s => jsafeStr s
  | .jarr items => jsafeItems items
  | .jobj pairs => jsafePairs pairs

/-- All strings inside the array elements are JSON-safe. -/
def jsafeItems : List JVal → Bool
  | [] => true
  | x :: tl => jsafe x && jsafeItems tl

/-- All keys and values of the pairs are JSON-safe. -/
def jsafePairs : List (String × JVal) → Bool
  | [] => true
  | (k, v) :: tl => jsafeStr k && jsafe v && jsafePairs tl

end

mutual

/-- Serialisation of a `JVal` to JSON text. Modelled from the stdlib
`json.dump`: `indent` only inserts inter-token whitespace (which `json.load`
ignores), so the model emits the tokens without it; `sort_keys=True` is
modelled separately by `normJ` below, so `serV` itself writes pairs in
order. -/
def serV : JVal → List Char
  | .jnull => 'n' :: 'u' :: 'l' :: 'l' :: []
  | .jbool true => 't' :: 'r' :: 'u' :: 'e' :: []
  | .jbool false => 'f' :: 'a' :: 'l' :: 's' :: 'e' :: []
  | .jint m => intChars m
  | .jstr s => '"' :: s.toList ++ ['"']
  | .jarr items => '[' :: serItems items ++ [']']
  | .jobj pairs => lbrace :: serPairs pairs ++ [rbrace]

/-- Serialised array elements, comma separated. -/
def serItems : List JVal → List Char
  | [] => []
  | x :: tl => serV x ++ serItemsTail tl

/-- Serialised array elements after the first. -/
def serItemsTail : List JVal → List Char
  | [] => []
  | x :: tl => ',' :: serV x ++ serItemsTail tl

/-- Serialised object pairs, comma separated. -/
def serPairs : List (String × JVal) → List Char
  | [] => []
  | (k, v) :: tl => serKV k v ++ serPairsTail tl

/-- Serialised object pairs after the first. -/
def serPairsTail : List (String × JVal) → List Char
  | [] => []
  | (k, v) :: tl => ',' :: serKV k v ++ serPairsTail tl

/-- One serialised `"key": value` pair (the `': '` key separator of
`json.dump`). -/
def serKV (k : String) (v : JVal) : List Char :=
  '"' :: k.toList ++ '"' :: ':' :: ' ' :: serV v

end

mutual

/-- Measure used as parser fuel: enough budget for the value's nesting. -/
def jsize : JVal → Nat
  | .jnull => 1
  | .jbool _ => 1
  | .jint _ => 1
  | .jstr _ => 1
  | .jarr items => 1 + isize items
  | .jobj pairs => 1 + osize pairs

/-- Fuel for the elements of an array. -/
def isize : List JVal → Nat
  | [] => 1
  | x :: tl => 1 + max (jsize x) (isize tl)

/-- Fuel for the pairs of an object. -/
def osize : List (String × JVal) → Nat
  | [] => 1
  | (_, v) :: tl => 1 + max (jsize v) (osize tl)

end

/-- JSON whitespace. -/
def wsChar (c : Char) : Bool := c = ' ' || c = '\n' || c = '\t' || c = '\r'

/-- Drop leading JSON whitespace. -/
def skipWs : List Char → List Char
  | [] => []
  | c :: cs => if wsChar c then skipWs cs else c :: cs

/-- Scan the body of a JSON string up to its closing quote (safe strings
carry no escapes). -/
def scanChars : List Char → Option (List Char × List Char)
  | [] => none
  | c :: tl =>
    if c = '"' then some ([], tl)
    else match scanChars tl with
      | some (s, r) => some (c :: s, r)
      | none => none

/-- Leading run of decimal digits and the rest. -/
def takeDigits : List Char → List Char × List Char
  | [] => ([], [])
  | c :: tl =>
    if c.isDigit then
      let (ds, r) := takeDigits tl
      (c :: ds, r)
    else ([], c :: tl)

mutual

/-- Fuelled JSON parser for one value, modelling `json.load` on the
fragment `json.dump` emits (null, booleans, integers, safe strings, arrays,
objects). Returns the value and the unconsumed suffix. -/
def parseV : Nat → List Char → Option (JVal × List Char)
  | 0, _ => none
  | n + 1, cs =>
    match skipWs cs with
    | [] => none
    | c :: rest =>
      if c = 'n' then
        match rest with
        | 'u' :: 'l' :: 'l' :: r => some (.jnull, r)
        | _ => none
      else if c = 't' then
        match rest with
        | 'r' :: 'u' :: 'e' :: r => some (.jbool true, r)
        | _ => none
      else if c = 'f' then
        match rest with
        | 'a' :: 'l' :: 's' :: 'e' :: r => some (.jbool false, r)
        | _ => none
      else if c = '"' then
        match scanChars rest with
        | some (s, r) => some (.jstr (String.mk s), r)
        | none => none
      else if c = '[' then
        match skipWs rest with
        | [] => none
        | c2 :: r2 =>
          if c2 = ']' then some (.jarr [], r2)
          else
            match parseV n rest with
            | some (v, r1) => parseItems n r1 [v]
            | none => none
      else if c = lbrace then
        match skipWs rest with
        | [] => none
        | c2 :: r2 =>
          if c2 = rbrace then some (.jobj [], r2)
          else if c2 = '"' then
            match scanChars r2 with
            | some (k, r3) =>
              (match skipWs r3 with
               | c4 :: r4 =>
                 if c4 = ':' then
                   match parseV n r4 with
                   | some (v, r5) => parsePairs n r5 [(String.mk k, v)]
                   | none => none
                 else none
               | [] => none)
            | none => none
          else none
      else if c = '-' then
        match takeDigits rest with
        | ([], _) => none
        | (ds, r) => some (.jint (-(readNat ds : Int)), r)
      else if c.isDigit then
        match takeDigits (c :: rest) with
        | ([], _) => none
        | (ds, r) => some (.jint (readNat ds), r)
      else none

/-- Fuelled parser for the remaining elements of an array, accumulator
reversed. -/
def parseItems : Nat → List Char → List JVal → Option (JVal × List Char)
  | 0, _, _ => none
  | n + 1, cs, acc =>
    match skipWs cs with
    | [] => none
    | c :: rest =>
      if c = ']' then some (.jarr acc.reverse, rest)
      else if c = ',' then
        match parseV n rest with
        | some (v, r1) => parseItems n r1 (v :: acc)
        | none => none
      else none

/-- Fuelled parser for the remaining pairs of an object, accumulator
reversed. -/
def parsePairs : Nat → List Char → List (String × JVal) → Option (JVal × List Char)
  | 0, _, _ => none
  | n + 1, cs, acc =>
    match skipWs cs with
    | [] => none
    | c :: rest =>
      if c = rbrace then some (.jobj acc.reverse, rest)
      else if c = ',' then
        match skipWs rest with
        | c2 :: r2 =>
          if c2 = '"' then
            match scanChars r2 with
            | some (k, r3) =>
              (match skipWs r3 with
               | c4 :: r4 =>
                 if c4 = ':' then
                   match parseV n r4 with
                   | some (v, r5) => parsePairs n r5 ((String.mk k, v) :: acc)
                   | none => none
                 else none
               | [] => none)
            | none => none
          else none
        | [] => none
      else none

end

/-- The rest of the input after a serialised token must not start with a
digit (a digit would extend a serialised number). -/
def delim : List Char → Prop
  | [] => True
  | c :: _ => c.isDigit = false

theorem readNat_append_digit (ds : List Char) (d : Char) :
    readNat (ds ++ [d]) = readNat ds * 10 + (d.toNat - 48) := by
  simp [readNat, List.foldl_append]

theorem natCharsAux_spec :
    ∀ fuel n, n < fuel →
      natCharsAux fuel n ≠ [] ∧ (∀ c ∈ natCharsAux fuel n, c.isDigit = true) ∧
        readNat (natCharsAux fuel n) = n := by
  intro fuel
  induction fuel with
  | zero => omega
  | succ fuel ih =>
    intro n hn
    by_cases h10 : n < 10
    · refine ⟨by simp [natCharsAux, h10], ?_, ?_⟩
      · intro c hc
        simp [natCharsAux, h10] at hc
        subst hc
        interval_cases n <;> decide
      · simp [natCharsAux, h10, readNat]
        interval_cases n <;> decide
    · have hrec : n / 10 < fuel := by omega
      obtain ⟨h1, h2, h3⟩ := ih (n / 10) hrec
      refine ⟨by simp [natCharsAux, h10], ?_, ?_⟩
      · intro c hc
        simp only [natCharsAux, h10, if_false, List.mem_append, List.mem_singleton] at hc
        rcases hc with hc | hc
        · exact h2 c hc
        · subst hc
          have : n % 10 < 10 := Nat.mod_lt _ (by omega)
          interval_cases h : n % 10 <;> simp_all <;> decide
      · simp only [natCharsAux, h10, if_false, readNat_append_digit, h3]
        have hm : n % 10 < 10 := Nat.mod_lt _ (by omega)
        have : (Nat.digitChar (n % 10)).toNat = 48 + n % 10 := by
          interval_cases h : n % 10 <;> simp_all <;> decide
        omega

theorem natChars_spec (n : Nat) :
    natChars n ≠ [] ∧ (∀ c ∈ natChars n, c.isDigit = true) ∧
      readNat (natChars n) = n :=
  natCharsAux_spec (n + 1) n (by omega)

theorem ne_of_isDigit {c d : Char} (h : c.isDigit = true) (hd : d.isDigit = false) :
    c ≠ d := by
  intro e
  rw [e, hd] at h
  cases h

theorem isDigit_not_ws {c : Char} (h : c.isDigit = true) : wsChar c = false := by
  have h1 : c ≠ ' ' := ne_of_isDigit h (by decide)
  have h2 : c ≠ '\n' := ne_of_isDigit h (by decide)
  have h3 : c ≠ '\t' := ne_of_isDigit h (by decide)
  have h4 : c ≠ '\r' := ne_of_isDigit h (by decide)
  simp [wsChar, h1, h2, h3, h4]

theorem takeDigits_append (ds rest : List Char)
    (h : ∀ c ∈ ds, c.isDigit = true) (hr : delim rest) :
    takeDigits (ds ++ rest) = (ds, rest) := by
  induction ds with
  | nil =>
    cases rest with
    | nil => rfl
    | cons c tl => simp only [delim] at hr; simp [takeDigits, hr]
  | cons c tl ih =>
    have hc := h c (by simp)
    simp [takeDigits, hc, ih (fun d hd => h d (by simp [hd]))]

theorem scanChars_append (s rest : List Char) (h : ∀ c ∈ s, c ≠ '"') :
    scanChars (s ++ '"' :: rest) = some (s, rest) := by
  induction s with
  | nil => simp [scanChars]
  | cons c tl ih =>
    have hc := h c (by simp)
    simp [scanChars, hc, ih (fun d hd => h d (by simp [hd]))]

theorem skipWs_cons_of_not_ws {c : Char} (cs : List Char) (h : wsChar c = false) :
    skipWs (c :: cs) = c :: cs := by
  simp [skipWs, h]

theorem skipWs_space (cs : List Char) : skipWs (' ' :: cs) = skipWs cs := by
  simp [skipWs, wsChar]

/-- The first character of a serialised value: never whitespace and never a
closing bracket. -/
theorem serV_head (v : JVal) :
    ∃ c cs, serV v = c :: cs ∧ wsChar c = false ∧ c ≠ ']' := by
  cases v with
  | jnull => exact ⟨'n', ['u', 'l', 'l'], by simp [serV], by decide, by decide⟩
  | jbool b =>
    cases b
    · exact ⟨'f', ['a', 'l', 's', 'e'], by simp [serV], by decide, by decide⟩
    · exact ⟨'t', ['r', 'u', 'e'], by simp [serV], by decide, by decide⟩
  | jint m =>
    by_cases hm : m < 0
    · exact ⟨'-', natChars m.natAbs, by simp [serV, intChars, hm], by decide, by decide⟩
    · obtain ⟨h1, h2, -⟩ := natChars_spec m.toNat
      obtain ⟨c, cs, hcs⟩ := List.exists_cons_of_ne_nil h1
      refine ⟨c, cs, by simp [serV, intChars, hm, hcs], ?_, ?_⟩
      · exact isDigit_not_ws (h2 c (by simp [hcs]))
      · exact ne_of_isDigit (h2 c (by simp [hcs])) (by decide)
  | jstr s => exact ⟨'"', s.toList ++ ['"'], by simp [serV], by decide, by decide⟩
  | jarr items => exact ⟨'[', serItems items ++ [']'], by simp [serV], by decide, by decide⟩
  | jobj pairs => exact ⟨lbrace, serPairs pairs ++ [rbrace], by simp [serV], by decide, by decide⟩

theorem skipWs_serV (v : JVal) (rest : List Char) :
    skipWs (serV v ++ rest) = serV v ++ rest := by
  obtain ⟨c, cs, hv, hws, -⟩ := serV_head v
  rw [hv]
  exact skipWs_cons_of_not_ws _ hws

theorem delim_serItemsTail (tl : List JVal) (rest : List Char) :
    delim (serItemsTail tl ++ ']' :: rest) := by
  cases tl with
  | nil => simp [serItemsTail, delim]
  | cons x tl => simp [serItemsTail, delim]

theorem delim_serPairsTail (tl : List (String × JVal)) (rest : List Char) :
    delim (serPairsTail tl ++ rbrace :: rest) := by
  cases tl with
  | nil => simp [serPairsTail, delim, rbrace]
  | cons x tl => obtain ⟨k, v⟩ := x; simp [serPairsTail, delim]

theorem jsize_pos (v : JVal) : 1 ≤ jsize v := by
  cases v <;> simp [jsize]

theorem isize_pos (tl : List JVal) : 1 ≤ isize tl := by
  cases tl <;> simp [isize]

theorem osize_pos (tl : List (String × JVal)) : 1 ≤ osize tl := by
  cases tl with
  | nil => simp [osize]
  | cons p tl => obtain ⟨k, v⟩ := p; simp [osize]

theorem jsafeStr_no_quote {s : String} (h : jsafeStr s = true) :
    ∀ c ∈ s.toList, c ≠ '"' := by
  intro c hc
  have := (List.all_eq_true.mp h) c hc
  simp only [jsafeChar, Bool.and_eq_true, decide_eq_true_eq] at this
  exact this.1.2

theorem digit_head_facts {d : Char} (h : d.isDigit = true) :
    d ≠ 'n' ∧ d ≠ 't' ∧ d ≠ 'f' ∧ d ≠ '"' ∧ d ≠ '[' ∧ d ≠ lbrace ∧ d ≠ '-' :=
  ⟨ne_of_isDigit h (by decide), ne_of_isDigit h (by decide),
   ne_of_isDigit h (by decide), ne_of_isDigit h (by decide),
   ne_of_isDigit h (by decide), ne_of_isDigit h (by decide),
   ne_of_isDigit h (by decide)⟩

theorem charFacts :
    wsChar ']' = false ∧ wsChar ',' = false ∧ wsChar ':' = false ∧
    wsChar '"' = false ∧ wsChar rbrace = false ∧ wsChar lbrace = false ∧
    lbrace ≠ 'n' ∧ lbrace ≠ 't' ∧ lbrace ≠ 'f' ∧ lbrace ≠ '"' ∧ lbrace ≠ '[' ∧
    (',' : Char) ≠ rbrace ∧ ('"' : Char) ≠ rbrace := by decide

/-- Joint parser-inverts-serialiser statement, by strong induction on the
fuel: a serialised safe value parses back to itself, leaving the suffix
untouched; likewise for array-element tails and object-pair tails. -/
theorem parse_ser_main (n : Nat) :
    (∀ v cs rest, jsafe v = true → jsize v ≤ n → delim rest →
        skipWs cs = serV v ++ rest → parseV n cs = some (v, rest)) ∧
    (∀ tl rest acc, jsafeItems tl = true → isize tl ≤ n → delim rest →
        parseItems n (serItemsTail tl ++ ']' :: rest) acc
          = some (.jarr (acc.reverse ++ tl), rest)) ∧
    (∀ tl rest acc, jsafePairs tl = true → osize tl ≤ n → delim rest →
        parsePairs n (serPairsTail tl ++ rbrace :: rest) acc
          = some (.jobj (acc.reverse ++ tl), rest)) := by
  induction n using Nat.strong_induction_on with
  | _ n ih =>
  obtain ⟨w1, w2, w3, w4, w5, w6, b1, b2, b3, b4, b5, b6, b7⟩ := charFacts
  refine ⟨?_, ?_, ?_⟩
  · intro v cs rest hsafe hsz hrest hcs
    rcases n with _ | m
    · have := jsize_pos v; omega
    cases v with
    | jnull =>
      simp only [serV] at hcs
      simp [parseV, hcs]
    | jbool b =>
      cases b
      · simp only [serV] at hcs
        simp [parseV, hcs]
      · simp only [serV] at hcs
        simp [parseV, hcs]
    | jint k =>
      by_cases hm : k < 0
      · simp only [serV, intChars, if_pos hm] at hcs
        obtain ⟨hne, hdig, hval⟩ := natChars_spec k.natAbs
        obtain ⟨d, ds, hds⟩ := List.exists_cons_of_ne_nil hne
        rw [hds] at hcs hval
        have htd : takeDigits ((d :: ds) ++ rest) = (d :: ds, rest) :=
          takeDigits_append _ _ (by rw [← hds]; exact hdig) hrest
        have hvalI : -((readNat (d :: ds) : Int)) = k := by rw [hval]; omega
        simp only [List.cons_append] at hcs htd
        simp [parseV, hcs, htd, hvalI, show ('-' : Char) ≠ lbrace by decide]
      · simp only [serV, intChars, if_neg hm] at hcs
        obtain ⟨hne, hdig, hval⟩ := natChars_spec k.toNat
        obtain ⟨d, ds, hds⟩ := List.exists_cons_of_ne_nil hne
        rw [hds] at hcs hval
        have hd : d.isDigit = true := by
          apply hdig; rw [hds]; simp
        obtain ⟨f1, f2, f3, f4, f5, f6, f7⟩ := digit_head_facts hd
        have htd : takeDigits ((d :: ds) ++ rest) = (d :: ds, rest) :=
          takeDigits_append _ _ (by rw [← hds]; exact hdig) hrest
        have hvalI : ((readNat (d :: ds) : Int)) = k := by
          rw [hval]; omega
        simp only [List.cons_append] at hcs htd
        simp [parseV, hcs, htd, hvalI, f1, f2, f3, f4, f5, f6, f7, hd]
    | jstr s =>
      simp only [serV] at hcs
      have hq : ∀ c ∈ s.toList, c ≠ '"' := jsafeStr_no_quote (by simpa [jsafe] using hsafe)
      have hsc := scanChars_append s.toList rest hq
      have hmk : String.mk s.toList = s := by cases s; rfl
      simp only [List.cons_append, List.append_assoc, List.singleton_append] at hcs
      simp only [String.toList] at hcs hsc hmk
      simp [parseV, hcs, hsc, hmk, String.toList]
    | jarr items =>
      cases items with
      | nil =>
        simp only [serV, serItems] at hcs
        simp [parseV, hcs, skipWs, w1]
      | cons x tl =>
        have hsafe' : jsafe x = true ∧ jsafeItems tl = true := by
          simpa [jsafe, jsafeItems, Bool.and_eq_true] using hsafe
        have hsz' : jsize x ≤ m ∧ isize tl ≤ m := by
          simp [jsize, isize] at hsz; omega
        obtain ⟨c0, cs0, he, hws0, hne0⟩ := serV_head x
        have hcs' : skipWs cs
            = '[' :: (c0 :: (cs0 ++ (serItemsTail tl ++ ']' :: rest))) := by
          rw [hcs]; simp [serV, serItems, he]
        have hP := (ih m (by omega)).1 x
          (c0 :: (cs0 ++ (serItemsTail tl ++ ']' :: rest)))
          (serItemsTail tl ++ ']' :: rest)
          hsafe'.1 hsz'.1 (delim_serItemsTail tl rest)
          (by rw [skipWs_cons_of_not_ws _ hws0, he]; simp)
        have hQ := (ih m (by omega)).2.1 tl rest [x] hsafe'.2 hsz'.2 hrest
        simp [parseV, hcs', skipWs_cons_of_not_ws _ hws0, hne0, hP, hQ]
    | jobj pairs =>
      cases pairs with
      | nil =>
        simp only [serV, serPairs] at hcs
        simp [parseV, hcs, skipWs, w5, b1, b2, b3, b4, b5]
      | cons p tl =>
        obtain ⟨k, v⟩ := p
        have hsafe' : jsafeStr k = true ∧ jsafe v = true ∧ jsafePairs tl = true := by
          simpa [jsafe, jsafePairs, Bool.and_eq_true, and_assoc] using hsafe
        have hsz' : jsize v ≤ m ∧ osize tl ≤ m := by
          simp [jsize, osize] at hsz; omega
        have hq := jsafeStr_no_quote hsafe'.1
        have hsc := scanChars_append k.toList
          (':' :: ' ' :: (serV v ++ (serPairsTail tl ++ rbrace :: rest))) hq
        have hmk : String.mk k.toList = k := by cases k; rfl
        have hcs' : skipWs cs
            = lbrace :: ('"' :: (k.toList ++ ('"' :: ':' :: ' ' :: (serV v ++ (serPairsTail tl ++ rbrace :: rest))))) := by
          rw [hcs]; simp [serV, serPairs, serKV]
        have hP := (ih m (by omega)).1 v
          (' ' :: (serV v ++ (serPairsTail tl ++ rbrace :: rest)))
          (serPairsTail tl ++ rbrace :: rest)
          hsafe'.2.1 hsz'.1 (delim_serPairsTail tl rest)
          (by rw [skipWs_space]; exact skipWs_serV v _)
        have hR := (ih m (by omega)).2.2 tl rest [(k, v)] hsafe'.2.2 hsz'.2 hrest
        simp only [String.toList] at hcs' hsc hmk
        simp [parseV, hcs', hsc, hmk, hP, hR, skipWs, String.toList,
          w3, w4, b1, b2, b3, b4, b5, b7]
  · intro tl rest acc hsafe hsz hrest
    rcases n with _ | m
    · have := isize_pos tl; omega
    cases tl with
    | nil =>
      simp [serItemsTail, parseItems, skipWs, w1]
    | cons y tl' =>
      have hsafe' : jsafe y = true ∧ jsafeItems tl' = true := by
        simpa [jsafeItems, Bool.and_eq_true] using hsafe
      have hsz' : jsize y ≤ m ∧ isize tl' ≤ m := by
        simp [isize] at hsz; omega
      have hP := (ih m (by omega)).1 y
        (serV y ++ (serItemsTail tl' ++ ']' :: rest))
        (serItemsTail tl' ++ ']' :: rest)
        hsafe'.1 hsz'.1 (delim_serItemsTail tl' rest) (skipWs_serV y _)
      have hQ := (ih m (by omega)).2.1 tl' rest (y :: acc) hsafe'.2 hsz'.2 hrest
      simp [serItemsTail, parseItems, skipWs, hP, hQ, w2]
  · intro tl rest acc hsafe hsz hrest
    rcases n with _ | m
    · have := osize_pos tl; omega
    cases tl with
    | nil =>
      simp [serPairsTail, parsePairs, skipWs, w5]
    | cons p tl' =>
      obtain ⟨k, v⟩ := p
      have hsafe' : jsafeStr k = true ∧ jsafe v = true ∧ jsafePairs tl' = true := by
        simpa [jsafePairs, Bool.and_eq_true, and_assoc] using hsafe
      have hsz' : jsize v ≤ m ∧ osize tl' ≤ m := by
        simp [osize] at hsz; omega
      have hq := jsafeStr_no_quote hsafe'.1
      have hsc := scanChars_append k.toList
        (':' :: ' ' :: (serV v ++ (serPairsTail tl' ++ rbrace :: rest))) hq
      have hmk : String.mk k.toList = k := by cases k; rfl
      have hP := (ih m (by omega)).1 v
        (' ' :: (serV v ++ (serPairsTail tl' ++ rbrace :: rest)))
        (serPairsTail tl' ++ rbrace :: rest)
        hsafe'.2.1 hsz'.1 (delim_serPairsTail tl' rest)
        (by rw [skipWs_space]; exact skipWs_serV v _)
      have hR := (ih m (by omega)).2.2 tl' rest ((k, v) :: acc) hsafe'.2.2 hsz'.2 hrest
      simp only [String.toList] at hsc hmk
      simp [serPairsTail, serKV, parsePairs, skipWs, hsc, hmk, hP, hR, String.toList,
        w2, w3, w4, b6, b7]

/-- Key order used by `sort_keys=True` (Python compares `str` by code
points, as the lexicographic `String` order does for ASCII). -/
def pairLE (a b : String × JVal) : Prop := a.1 ≤ b.1

instance : DecidableRel pairLE := fun a b => by
  unfold pairLE; infer_instance

instance : IsTotal (String × JVal) pairLE := ⟨fun a b => le_total a.1 b.1⟩

instance : IsTrans (String × JVal) pairLE := ⟨fun _ _ _ h1 h2 => le_trans h1 h2⟩

/-- The pairs of an object sorted by key, as `json.dump(..., sort_keys=True)`
writes them. -/
def sortPairs (l : List (String × JVal)) : List (String × JVal) :=
  l.insertionSort pairLE

mutual

/-- The value as `json.dump(..., sort_keys=True)` rewrites it: every
object's pairs sorted by key, recursively. -/
def normJ : JVal → JVal
  | .jnull => .jnull
  | .jbool b => .jbool b
  | .jint n => .jint n
  | .jstr s => .jstr s
  | .jarr items => .jarr (normItems items)
  | .jobj pairs => .jobj (sortPairs (normPairs pairs))

/-- `normJ` over array elements. -/
def normItems : List JVal → List JVal
  | [] => []
  | x :: tl => normJ x :: normItems tl

/-- `normJ` over pair values. -/
def normPairs : List (String × JVal) → List (String × JVal)
  | [] => []
  | (k, v) :: tl => (k, normJ v) :: normPairs tl

end

/-- The JSON text `json.dump(value, f, indent=4, sort_keys=True)` writes,
up to inter-token whitespace. -/
def dumps (v : JVal) : String := String.mk (serV (normJ v))

/-- `json.load` on a complete document: parse one value and require that
only whitespace remains. -/
def parseJson (s : String) : Option JVal :=
  match parseV (s.toList.length + 1) s.toList with
  | some (v, rest) => if skipWs rest = [] then some v else none
  | none => none

mutual

/-- Canonical (already key-sorted) values: `normJ` fixes exactly these. -/
def canonV : JVal → Bool
  | .jnull => true
  | .jbool _ => true
  | .jint _ => true
  | .jstr _ => true
  | .jarr items => canonItems items
  | .jobj pairs => decide (pairs.Chain' pairLE) && canonPairs pairs

/-- Canonicity of array elements. -/
def canonItems : List JVal → Bool
  | [] => true
  | x :: tl => canonV x && canonItems tl

/-- Canonicity of pair values. -/
def canonPairs : List (String × JVal) → Bool
  | [] => true
  | (_, v) :: tl => canonV v && canonPairs tl

end

theorem mem_sortPairs {p : String × JVal} {l : List (String × JVal)} :
    p ∈ sortPairs l ↔ p ∈ l :=
  (List.perm_insertionSort pairLE l).mem_iff

theorem jsafePairs_iff {l : List (String × JVal)} :
    jsafePairs l = true ↔ ∀ p ∈ l, jsafeStr p.1 = true ∧ jsafe p.2 = true := by
  induction l with
  | nil => simp [jsafePairs]
  | cons p tl ih =>
    obtain ⟨k, v⟩ := p
    simp [jsafePairs, Bool.and_eq_true, ih, and_assoc]

theorem jsafeItems_iff {l : List JVal} :
    jsafeItems l = true ↔ ∀ x ∈ l, jsafe x = true := by
  induction l with
  | nil => simp [jsafeItems]
  | cons x tl ih => simp [jsafeItems, Bool.and_eq_true, ih]

theorem canonPairs_iff {l : List (String × JVal)} :
    canonPairs l = true ↔ ∀ p ∈ l, canonV p.2 = true := by
  induction l with
  | nil => simp [canonPairs]
  | cons p tl ih =>
    obtain ⟨k, v⟩ := p
    simp [canonPairs, Bool.and_eq_true, ih]

theorem chain'_sortPairs (l : List (String × JVal)) :
    (sortPairs l).Chain' pairLE :=
  List.chain'_iff_pairwise.mpr (List.sorted_insertionSort pairLE l)

theorem sortPairs_eq_self {l : List (String × JVal)} (h : l.Chain' pairLE) :
    sortPairs l = l :=
  List.Sorted.insertionSort_eq (List.chain'_iff_pairwise.mp h)

/-- `sort_keys` keeps every string JSON-safe. -/
theorem jsafe_normJ : ∀ v, jsafe v = true → jsafe (normJ v) = true := by
  refine normJ.induct
    (fun v => jsafe v = true → jsafe (normJ v) = true)
    (fun l => jsafePairs l = true → jsafePairs (normPairs l) = true)
    (fun l => jsafeItems l = true → jsafeItems (normItems l) = true)
    ?_ ?_ ?_ ?_ ?_ ?_ ?_ ?_ ?_ ?_
  · simp [normJ]
  · simp [normJ]
  · simp [normJ]
  · simp [normJ, jsafe]
  · intro items ih h
    simp only [normJ, jsafe] at h ⊢
    exact ih h
  · intro pairs ih h
    simp only [normJ, jsafe] at h ⊢
    rw [jsafePairs_iff]
    intro p hp
    exact (jsafePairs_iff.mp (ih h)) p (mem_sortPairs.mp hp)
  · simp [normItems]
  · intro x tl ihx ihtl h
    simp only [jsafeItems, Bool.and_eq_true, normItems] at h ⊢
    exact ⟨ihx h.1, ihtl h.2⟩
  · simp [normPairs]
  · intro k v tl ihv ihtl h
    simp only [jsafePairs, Bool.and_eq_true, normPairs] at h ⊢
    exact ⟨⟨h.1.1, ihv h.1.2⟩, ihtl h.2⟩

/-- `normJ` produces canonical values. -/
theorem canonV_normJ : ∀ v, canonV (normJ v) = true := by
  refine normJ.induct
    (fun v => canonV (normJ v) = true)
    (fun l => canonPairs (normPairs l) = true)
    (fun l => canonItems (normItems l) = true)
    ?_ ?_ ?_ ?_ ?_ ?_ ?_ ?_ ?_ ?_
  · simp [normJ, canonV]
  · simp [normJ, canonV]
  · simp [normJ, canonV]
  · simp [normJ, canonV]
  · intro items ih
    simpa [normJ, canonV] using ih
  · intro pairs ih
    simp only [normJ, canonV, Bool.and_eq_true]
    refine ⟨by simpa using chain'_sortPairs (normPairs pairs), ?_⟩
    rw [canonPairs_iff]
    intro p hp
    exact (canonPairs_iff.mp ih) p (mem_sortPairs.mp hp)
  · simp [normItems, canonItems]
  · intro x tl ihx ihtl
    simp [normItems, canonItems, Bool.and_eq_true, ihx, ihtl]
  · simp [normPairs, canonPairs]
  · intro k v tl ihv ihtl
    simp [normPairs, canonPairs, Bool.and_eq_true, ihv, ihtl]

/-- `normJ` fixes canonical values. -/
theorem normJ_eq_self : ∀ v, canonV v = true → normJ v = v := by
  refine normJ.induct
    (fun v => canonV v = true → normJ v = v)
    (fun l => canonPairs l = true → normPairs l = l)
    (fun l => canonItems l = true → normItems l = l)
    ?_ ?_ ?_ ?_ ?_ ?_ ?_ ?_ ?_ ?_
  · simp [normJ]
  · simp [normJ]
  · simp [normJ]
  · simp [normJ]
  · intro items ih h
    simp only [canonV] at h
    simp [normJ, ih h]
  · intro pairs ih h
    simp only [canonV, Bool.and_eq_true, decide_eq_true_eq] at h
    simp [normJ, ih h.2, sortPairs_eq_self h.1]
  · simp [normItems]
  · intro x tl ihx ihtl h
    simp only [canonItems, Bool.and_eq_true] at h
    simp [normItems, ihx h.1, ihtl h.2]
  · simp [normPairs]
  · intro k v tl ihv ihtl h
    simp only [canonPairs, Bool.and_eq_true] at h
    simp [normPairs, ihv h.1, ihtl h.2]

/-- `sort_keys` normalisation is idempotent (Python `==` on dicts ignores
key order, and a sorted dict sorts to itself). -/
theorem normJ_idem (v : JVal) : normJ (normJ v) = normJ v :=
  normJ_eq_self _ (canonV_normJ v)

theorem serV_len_pos (v : JVal) : 1 ≤ (serV v).length := by
  obtain ⟨c, cs, he, -, -⟩ := serV_head v
  simp [he]

/-- The parser fuel `jsize` never exceeds the serialised length plus one,
so `parseJson` (which budgets by input length) has enough fuel. -/
theorem jsize_le_serV_length : ∀ v, jsize v ≤ (serV v).length := by
  refine serV.induct
    (fun v => jsize v ≤ (serV v).length)
    (fun l => osize l ≤ (serPairs l).length + 1)
    (fun l => osize l ≤ (serPairsTail l).length + 1)
    (fun k v => jsize v ≤ (serKV k v).length)
    (fun l => isize l ≤ (serItems l).length + 1)
    (fun l => isize l ≤ (serItemsTail l).length + 1)
    ?_ ?_ ?_ ?_ ?_ ?_ ?_ ?_ ?_ ?_ ?_ ?_ ?_ ?_ ?_ ?_
  · simp [jsize, serV]
  · simp [jsize, serV]
  · simp [jsize, serV]
  · intro m
    by_cases hm : m < 0
    · simp [jsize, serV, intChars, hm]
    · have := (natChars_spec m.toNat).1
      obtain ⟨c, cs, hcs⟩ := List.exists_cons_of_ne_nil this
      simp [jsize, serV, intChars, hm, hcs]
  · intro s; simp [jsize, serV]
  · intro items ih
    simp only [jsize, serV, List.length_cons, List.length_append, List.length_singleton]
    omega
  · intro pairs ih
    simp only [jsize, serV, List.length_cons, List.length_append, List.length_singleton]
    omega
  · simp [osize, serPairs]
  · intro k v tl ih4 ih3
    have hk : 1 ≤ (serKV k v).length := by simp [serKV]
    simp only [osize, serPairs, List.length_append]
    omega
  · simp [osize, serPairsTail]
  · intro k v tl ih4 ih3
    simp only [osize, serPairsTail, List.length_cons, List.length_append]
    omega
  · intro k v ih1
    simp only [serKV, List.length_cons, List.length_append]
    omega
  · simp [isize, serItems]
  · intro x tl ih1 ih6
    have hx := serV_len_pos x
    simp only [isize, serItems, List.length_append]
    omega
  · simp [isize, serItemsTail]
  · intro x tl ih1 ih6
    simp only [isize, serItemsTail, List.length_cons, List.length_append]
    omega

/-- Round trip of a complete document: what `json.dump(..., indent=4,
sort_keys=True)` writes, `json.load` reads back, with every object's pairs
key-sorted (which Python dict equality ignores). -/
theorem parseJson_dumps (v : JVal) (h : jsafe v = true) :
    parseJson (dumps v) = some (normJ v) := by
  have hs : jsafe (normJ v) = true := jsafe_normJ v h
  have hb : jsize (normJ v) ≤ (serV (normJ v)).length + 1 :=
    le_trans (jsize_le_serV_length _) (by omega)
  have hp := (parse_ser_main ((serV (normJ v)).length + 1)).1 (normJ v)
    (serV (normJ v)) [] hs hb trivial
    (by simpa using skipWs_serV (normJ v) [])
  simp only [parseJson, dumps]
  simp [hp, skipWs]

theorem llookup_normPairs (k : String) (l : List (String × JVal)) :
    llookup k (normPairs l) = (llookup k l).map normJ := by
  induction l with
  | nil => simp [normPairs, llookup]
  | cons p tl ih =>
    obtain ⟨k', v⟩ := p
    by_cases hk : k' = k
    · simp [normPairs, llookup, hk]
    · simp [normPairs, llookup, hk, ih]

theorem llookup_perm {l₁ l₂ : List (String × JVal)} (h : l₁.Perm l₂)
    (nd : (l₁.map Prod.fst).Nodup) (k : String) :
    llookup k l₁ = llookup k l₂ := by
  induction h with
  | nil => rfl
  | cons x h ih =>
    obtain ⟨a, b⟩ := x
    simp only [List.map_cons, List.nodup_cons] at nd
    by_cases ha : a = k
    · simp [llookup, ha]
    · simp [llookup, ha, ih nd.2]
  | swap x y l =>
    obtain ⟨a, b⟩ := x
    obtain ⟨a', b'⟩ := y
    simp only [List.map_cons, List.nodup_cons, List.mem_cons] at nd
    have hne : a' ≠ a := fun e => nd.1 (Or.inl e)
    by_cases ha : a' = k
    · subst ha
      simp [llookup, hne.symm]
    · by_cases ha2 : a = k <;> simp [llookup, ha, ha2]
  | trans h1 h2 ih1 ih2 =>
    have nd2 := ((h1.map Prod.fst).nodup_iff).mp nd
    rw [ih1 nd, ih2 nd2]

theorem map_fst_normPairs (l : List (String × JVal)) :
    (normPairs l).map Prod.fst = l.map Prod.fst := by
  induction l with
  | nil => simp [normPairs]
  | cons p tl ih =>
    obtain ⟨k', v⟩ := p
    simp [normPairs, ih]

theorem llookup_sortPairs {l : List (String × JVal)}
    (nd : (l.map Prod.fst).Nodup) (k : String) :
    llookup k (sortPairs l) = llookup k l := by
  have hperm := List.perm_insertionSort pairLE l
  have ndS : ((sortPairs l).map Prod.fst).Nodup :=
    ((hperm.map Prod.fst).nodup_iff).mpr nd
  exact llookup_perm hperm ndS k

/-- Lookup after `sort_keys` normalisation: the entry is the normalised
original entry. -/
theorem llookup_norm_jobj (pairs : List (String × JVal))
    (nd : (pairs.map Prod.fst).Nodup) (k : String) :
    llookup k (sortPairs (normPairs pairs)) = (llookup k pairs).map normJ := by
  rw [llookup_sortPairs (by rw [map_fst_normPairs]; exact nd) k,
    llookup_normPairs]

/-- Top-level keys of a JSON object value. -/
def objKeys : JVal → List String
  | .jobj pairs => pairs.map Prod.fst
  | _ => []

theorem objKeys_norm_jobj (pairs : List (String × JVal)) (a : String) :
    a ∈ objKeys (normJ (.jobj pairs)) ↔ a ∈ pairs.map Prod.fst := by
  have hperm := (List.perm_insertionSort pairLE (normPairs pairs)).map Prod.fst
  simp only [normJ, objKeys, sortPairs]
  rw [hperm.mem_iff, map_fst_normPairs]

/-!
Embedding of `src/openpype/modules/delivery/scripts/sg_delivery.py`.

External collaborators (Shotgrid session, Avalon project/version/
representation store, `openpype.modules.shotgrid.lib.delivery`,
`openpype.modules.delivery.scripts.utils`, Deadline, path templating) are
oracle fields of the environment structures; every theorem quantifies over
their replies.
-/

/-- A `collections.defaultdict(list)` report: message, then the ordered
list of detail strings, in key insertion order. -/
abbrev Report := List (String × List String)

/-- Generic association-list lookup (Python `d[k]` read on a dict whose
keys are unique). -/
def lookupA {α : Type} (k : String) : List (String × α) → Option α
  | [] => none
  | (k', v) :: tl => if k' = k then some v else lookupA k tl

/-- Python dict assignment `d[k] = v`: replaces in place, or appends a new
key at the end (insertion order preserved). -/
def setA {α : Type} : List (String × α) → String → α → List (String × α)
  | [], k, v => [(k, v)]
  | (k', v') :: tl, k, v =>
    if k' = k then (k, v) :: tl else (k', v') :: setA tl k v

/-- `report_items[msg].append(sub_msg)` on a `defaultdict(list)`. -/
def appendRep : Report → String → String → Report
  | [], k, v => [(k, [v])]
  | (k', vs) :: tl, k, v =>
    if k' = k then (k', vs ++ [v]) :: tl else (k', vs) :: appendRep tl k v

/-- Python `dict.update`: for every key of the right dict, replace (not
extend) the left dict's value, in the right dict's order. -/
def updateRep (r nr : Report) : Report :=
  nr.foldl (fun acc p => setA acc p.1 p.2) r

/-- Python errors surfaced by the embedded code. -/
inductive PyErr where
  | typeError
  | valueError

/-- Python `str` rendering of an `int`. -/
def intStr (m : Int) : String := String.mk (intChars m)

/-- Python `str` of the scalar values that cross the report boundary (the
Deadline job id is a string, or `None` when submission yielded none). -/
def pyStrOfJ : JVal → String
  | .jstr s => s
  | .jnull => "None"
  | .jbool true => "True"
  | .jbool false => "False"
  | .jint n => intStr n
  | .jarr _ => ""
  | .jobj _ => ""

/-- Python `str` of a list of strings, as an f-string interpolates it. -/
def pyReprStrList (l : List String) : String :=
  "[" ++ String.intercalate ", " (l.map (fun s => "'" ++ s ++ "'")) ++ "]"

/-- A Shotgrid Version record as queried by the delivery scripts (fields
`id`, `code`, `sg_op_instance_id`). -/
structure SgVersion where
  idv : Int
  code : String
  op_instance_id : JVal

/-- `if not op_version_id or op_version_id == "-"` (sg_delivery.py lines
186 and 509 and 848). -/
def opIdMissing (x : JVal) : Bool :=
  !x.truthy || (match x with | .jstr s => decide (s = "-") | _ => false)

/-- `f"{sg_version['code']} - id: {sg_version['id']}<br>"`. -/
def subMsgOf (code : String) (idv : Int) : String :=
  code ++ " - id: " ++ intStr idv ++ "<br>"

def msgMissingId : String := "Missing 'sg_op_instance_id' field on SG Versions"

def msgNoOpVersion : String := "No OP version found for SG versions"

def msgNoExr : String := "No 'exr' representation found on SG versions"

def msgDelivered : String := "Successful delivered representations"

def msgSubmittedRepublish : String := "Submitted republish job to Deadline"

/-- `f"Requested '{delivery_types}' representations already exist"`. -/
def msgAlreadyExist (delivery_types : List String) : String :=
  "Requested '" ++ pyReprStrList delivery_types ++ "' representations already exist"

/-- Oracle replies used by `deliver_version` before line 240: the
representation names and the entity level that
`delivery.get_representation_names_from_overrides` resolves from the
hierarchy overrides (that helper lives outside `src/`). -/
structure DeliverEnv where
  namesFromOverrides : List String × Option String

/-- `deliver_version` (sg_delivery.py lines 158-382).

A version whose `sg_op_instance_id` is falsy or `"-"` returns the missing-id
report and `False` (lines 186-191). Any version that passes that check
reaches line 240, `representation_names.append["thumbnail"]`, which
subscripts the bound method `list.append` instead of calling it and raises
`TypeError`; the report entries built on lines 221-237 are lost with the
exception, so they are elided here. -/
def deliver_version (env : DeliverEnv) (sgv : SgVersion)
    (representation_names : Option (List String)) : Except PyErr (Report × Bool) :=
  if opIdMissing sgv.op_instance_id then
    .ok ([(msgMissingId, [subMsgOf sgv.code sgv.idv])], false)
  else
    let _names : List String × Option String :=
      match representation_names with
      | some (n :: tl) => (n :: tl, none)
      | _ => env.namesFromOverrides
    .error .typeError

/-- The two shapes `deliver_playlist_id` can return as its first component:
the report dict, or (on the project-not-found path, line 80) the
defaultdict's fresh empty list for the message key. -/
inductive RetReport where
  | rdict (r : Report)
  | rlist (l : List String)

/-- Oracle replies for one `deliver_playlist_id` run. -/
structure PlaylistEnv where
  projectFound : Bool
  projectName : String
  sgVersions : List SgVersion
  venv : SgVersion → DeliverEnv
  repNamesArg : Option (List String)

/-- The per-version loop of `deliver_playlist_id` (lines 90-104). -/
def deliver_playlist_loop (env : PlaylistEnv) :
    List SgVersion → Report → Bool → Except PyErr (Report × Bool)
  | [], r, s => .ok (r, s)
  | v :: rest, r, s => do
    let (nr, ns) ← deliver_version (env.venv v) v env.repNamesArg
    let r' := if nr.isEmpty then r else updateRep r nr
    deliver_playlist_loop env rest r' (s && ns)

/-- `deliver_playlist_id` (sg_delivery.py lines 42-106). When the Avalon
project is missing it returns `report_items[msg], False` — the fresh empty
list the defaultdict creates for the key, not the report dict (line 80). -/
def deliver_playlist_id (env : PlaylistEnv) : Except PyErr (RetReport × Bool) :=
  if !env.projectFound then
    .ok (.rlist [], false)
  else do
    let (r, s) ← deliver_playlist_loop env env.sgVersions [] true
    .ok (.rdict r, s)

/-- One OpenPype representation as the per-representation delivery loop
sees it (the fields the modelled control flow inspects; path templating
details live behind the oracles). -/
structure RepreX where
  rid : String
  reprePath : String

/-- Oracle replies for the per-representation delivery loop:
`check_destination_path` (report items and destination path),
`collect_frames` over the filled source paths, and `deliver_single_file`
(its report items). -/
structure RepreEnv where
  checkDest : RepreX → Report × String
  sourcesAndFrames : RepreX → List (String × Option String)
  deliverSingle : RepreX → String → Report

/-- The per-file inner loop of `deliver_version` (sg_delivery.py lines
368-380): deliver each source file, append a success entry when
`deliver_single_file` reported nothing, and `update` the run report with
its report items. -/
def deliver_repre_files (env : RepreEnv) (repre : RepreX) (dest : String) :
    List (String × Option String) → Report → Report
  | [], r => r
  | (src, _frame) :: tl, r =>
    let nr := env.deliverSingle repre src
    let r1 := if nr.isEmpty
      then appendRep r msgDelivered (repre.reprePath ++ " -> " ++ dest ++ "<br>")
      else r
    deliver_repre_files env repre dest tl (updateRep r1 nr)

/-- The per-representation loop of `deliver_version` (sg_delivery.py lines
257-382), reachable only if line 240 had not raised: on a
`check_destination_path` failure the function returns
`repre_report_items, False` at line 347 — only the new failure items, with
the accumulated report discarded and the remaining representations
skipped; when the loop completes it returns the report and `True`
(line 382) regardless of per-file failures recorded in it. -/
def deliver_repres (env : RepreEnv) :
    List RepreX → Report → Report × Bool
  | [], r => (r, true)
  | repre :: rest, r =>
    let (rr, dest) := env.checkDest repre
    if !rr.isEmpty then
      (rr, false)
    else
      deliver_repres env rest
        (deliver_repre_files env repre dest (env.sourcesAndFrames repre) r)

/-- POSIX `os.path.dirname`. -/
def dirname (s : String) : String :=
  let head := (s.toList.reverse.dropWhile (fun c => c ≠ '/')).reverse
  if head.isEmpty || head.all (fun c => c = '/') then String.mk head
  else String.mk ((head.reverse.dropWhile (fun c => c = '/')).reverse)

/-- Python `\w` on the ASCII names these paths use. -/
def isWordChar (c : Char) : Bool := c.isAlphanum || c = '_'

/-- `re.sub(r"\d+(?=\.\w+$)", lambda m: "#" * len(m.group()), exr_path)`
(sg_delivery.py lines 616-618): replace the digit run right before the
final `.extension` with as many `#` as it has digits. The lookahead is
anchored at the end, so at most the run before the last dot matches. -/
def hashesPath (s : String) : String :=
  let revCs := s.toList.reverse
  let ext := revCs.takeWhile (fun c => c ≠ '.')
  match revCs.dropWhile (fun c => c ≠ '.') with
  | '.' :: pre =>
    if !ext.isEmpty && ext.all isWordChar then
      let digits := pre.takeWhile Char.isDigit
      if !digits.isEmpty then
        String.mk (((pre.dropWhile Char.isDigit).reverse)
          ++ List.replicate digits.length '#' ++ '.' :: ext.reverse)
      else s
    else s
  | _ => s

/-- The OpenPype version document fields `republish_version` reads. -/
structure VersionDoc where
  name : Int
  families : List String
  frameStart : Int
  frameEnd : Int
  handleStart : Int
  handleEnd : Int
  comment : JVal
  fps : JVal
  source : JVal
  colorspace : JVal

/-- The `exr` representation document fields `republish_version` reads. -/
structure ExrRepre where
  family : String
  subset : String
  asset : String
  task : String
  path : String

/-- A side effect of `republish_version` on its collaborators. -/
inductive Effect where
  | submitDeadlineJob (metadataPath : String)
  | writeFile (path : String) (content : String)

/-- Oracle replies for one `republish_version` run. -/
structure RepubEnv where
  project_name : String
  user : String
  deadline_url : String
  session : List (String × JVal)
  version_doc : Option VersionDoc
  exr_repre : Option ExrRepre
  names_from_sg : List String × Option String
  existing_rep_names : List String
  expected_files : String → Int → Int → List String
  get_representations : JVal → List String → List JVal
  set_colorspace : JVal → JVal → JVal
  metadata_path : JVal → String
  submit_result : JVal

/-- `families` list built on sg_delivery.py lines 569-575. -/
def republish_families (vd : VersionDoc) (delivery_types : List String) : List String :=
  vd.families ++ ["review"] ++ delivery_types.map (fun t => "client_" ++ t)

/-- `instance_data` as first built (sg_delivery.py lines 577-606). -/
def republish_instance_data0 (env : RepubEnv) (sgv : SgVersion) (vd : VersionDoc)
    (exr : ExrRepre) (delivery_types : List String) : List (String × JVal) :=
  [("project", .jstr env.project_name),
   ("family", .jstr exr.family),
   ("subset", .jstr exr.subset),
   ("families", .jarr ((republish_families vd delivery_types).map JVal.jstr)),
   ("asset", .jstr exr.asset),
   ("task", .jstr exr.task),
   ("frameStart", .jint vd.frameStart),
   ("frameEnd", .jint vd.frameEnd),
   ("handleStart", .jint vd.handleStart),
   ("handleEnd", .jint vd.handleEnd),
   ("frameStartHandle", .jint (vd.frameStart - vd.handleStart)),
   ("frameEndHandle", .jint (vd.frameEnd + vd.handleEnd)),
   ("comment", vd.comment),
   ("fps", vd.fps),
   ("source", vd.source),
   ("overrideExistingFrame", .jbool false),
   ("jobBatchName", .jstr ("Republish - " ++ sgv.code ++ " - " ++ intStr vd.name)),
   ("useSequenceForReview", .jbool true),
   ("colorspace", vd.colorspace),
   ("version", .jint vd.name),
   ("outputDir", .jstr (dirname exr.path))]

/-- `legacy_io.Session` after the injections of lines 609-613. -/
def republish_session (env : RepubEnv) (exr : ExrRepre) : List (String × JVal) :=
  setA (setA (setA (setA (setA env.session
    "AVALON_ASSET" (.jstr exr.asset))
    "AVALON_TASK" (.jstr exr.task))
    "AVALON_WORKDIR" (.jstr (dirname exr.path)))
    "AVALON_PROJECT" (.jstr env.project_name))
    "AVALON_APP" (.jstr "traypublisher")

/-- The representations added to the instance (lines 620-639): expected
files from the `#`-padded path, `utils.get_representations`, and the
colorspace injection, all behind oracles. -/
def republish_reps (env : RepubEnv) (sgv : SgVersion) (vd : VersionDoc)
    (exr : ExrRepre) (delivery_types : List String) : List JVal :=
  let expected := env.expected_files (hashesPath exr.path)
    (vd.frameStart - vd.handleStart) (vd.frameEnd + vd.handleEnd)
  let reps0 := env.get_representations
    (.jobj (republish_instance_data0 env sgv vd exr delivery_types)) expected
  let source_colorspace :=
    if vd.colorspace.truthy then vd.colorspace else .jstr "scene_linear"
  reps0.map (fun r => env.set_colorspace r source_colorspace)

/-- `instance_data` after `instance_data["representations"] +=
representations` (lines 641-645). -/
def republish_instance_data1 (env : RepubEnv) (sgv : SgVersion) (vd : VersionDoc)
    (exr : ExrRepre) (delivery_types : List String) : List (String × JVal) :=
  republish_instance_data0 env sgv vd exr delivery_types
    ++ [("representations", .jarr (republish_reps env sgv vd exr delivery_types))]

/-- The faked `render_job` dict (lines 648-658). -/
def republish_render_job (env : RepubEnv) (sgv : SgVersion) (vd : VersionDoc) : JVal :=
  .jobj [("Props", .jobj [
    ("Batch", .jstr ("Republish - " ++ sgv.code ++ " - " ++ intStr vd.name)),
    ("User", .jstr env.user)])]

/-- The `instances` list handed to the serialiser, after the
`inst["deadlineUrl"]` injection of lines 675-676. -/
def republish_instances (env : RepubEnv) (sgv : SgVersion) (vd : VersionDoc)
    (exr : ExrRepre) (delivery_types : List String) : List JVal :=
  [.jobj (republish_instance_data1 env sgv vd exr delivery_types
    ++ [("deadlineUrl", .jstr env.deadline_url)])]

/-- The pairs of the `publish_job` dict of sg_delivery.py lines 679-695:
the fixed twelve keys, plus `deadline_publish_job_id` when the Deadline
submission returned a truthy id (line 694). -/
def republish_pj_pairs (env : RepubEnv) (sgv : SgVersion) (vd : VersionDoc)
    (exr : ExrRepre) (delivery_types : List String) : List (String × JVal) :=
  [("asset", .jstr exr.asset),
   ("frameStart", .jint (vd.frameStart - vd.handleStart)),
   ("frameEnd", .jint (vd.frameEnd + vd.handleEnd)),
   ("fps", vd.fps),
   ("source", vd.source),
   ("user", .jstr env.user),
   ("version", .jnull),
   ("intent", .jnull),
   ("comment", vd.comment),
   ("job", if (republish_render_job env sgv vd).truthy
       then republish_render_job env sgv vd else .jnull),
   ("session", .jobj (republish_session env exr)),
   ("instances", .jarr (republish_instances env sgv vd exr delivery_types))]
  ++ (if env.submit_result.truthy
      then [("deadline_publish_job_id", env.submit_result)] else [])

/-- The `publish_job` dict handed to `json.dump`. -/
def republish_publish_job (env : RepubEnv) (sgv : SgVersion) (vd : VersionDoc)
    (exr : ExrRepre) (delivery_types : List String) : JVal :=
  .jobj (republish_pj_pairs env sgv vd exr delivery_types)

/-- The representation names the `force=False` validation uses: the
caller's truthy list, else `delivery.get_representation_names` (lines
541-551). -/
def republish_names (env : RepubEnv) (representation_names : Option (List String)) :
    List String :=
  match representation_names with
  | some (n :: tl) => n :: tl
  | _ => env.names_from_sg.1

/-- `republish_version` (sg_delivery.py lines 485-702): early falsy-id /
missing-version / missing-exr returns; the `force=False` short circuit of
lines 540-564 (requested names all existing returns `True` with no side
effect); otherwise the instance build, Deadline submission and manifest
write. The returned effect list records the submission and the
`json.dump` of `publish_job` to the metadata path. -/
def republish_version (env : RepubEnv) (sgv : SgVersion)
    (delivery_types : List String) (representation_names : Option (List String))
    (force : Bool) : (Report × Bool) × List Effect :=
  if opIdMissing sgv.op_instance_id then
    (([(msgMissingId, [subMsgOf sgv.code sgv.idv])], false), [])
  else match env.version_doc with
  | none => (([(msgNoOpVersion, [subMsgOf sgv.code sgv.idv])], false), [])
  | some vd => match env.exr_repre with
    | none => (([(msgNoExr, [subMsgOf sgv.code sgv.idv])], false), [])
    | some exr =>
      let names := republish_names env representation_names
      if !force && names.all (fun n => env.existing_rep_names.contains n) then
        (([(msgAlreadyExist delivery_types, [subMsgOf sgv.code sgv.idv])], true), [])
      else
        let instance_data1 := republish_instance_data1 env sgv vd exr delivery_types
        let metadata_path := env.metadata_path (.jobj instance_data1)
        let publish_job := republish_publish_job env sgv vd exr delivery_types
        (([(msgSubmittedRepublish, [pyStrOfJ env.submit_result])], true),
         [Effect.submitDeadlineJob metadata_path,
          Effect.writeFile metadata_path (dumps publish_job)])

/-!
Embedding of `src/openpype/plugins/publish/extract_color_transcode.py`
(the Alkemy-X override portions the claims concern:
`get_sg_output_profiles`, the `process` prologue that unpacks it, and
`_translate_to_sequence`).
-/

/-- One output definition as built from `profile_output_skeleton`
(extract_color_transcode.py lines 65-74) with the fields
`get_sg_output_profiles` fills in. -/
structure OutputProfile where
  extension : String
  transcoding_type : String
  colorspace : String
  display : String
  view : String
  additional_command_args : List String
  tags : List String
  custom_tags : List String
deriving DecidableEq

/-- `profile_output_skeleton` (lines 65-74). -/
def profile_output_skeleton : OutputProfile :=
  ⟨"", "colorspace", "", "", "", [], [], []⟩

/-- `supported_exts` (line 79). -/
def supported_exts : List String := ["exr", "jpg", "jpeg", "png", "dpx"]

/-- Delivery overrides of one Shotgrid entity level as stored under
`shotgridDeliveryOverrides`: the `Review LUT` flag, and per delivery type
the output-type dict (name to `sg_extension`) and the tag names. -/
structure EntOverrides where
  sg_review_lut : Bool
  sg_review_output_type : List (String × String)
  sg_final_output_type : List (String × String)
  sg_review_tags : List String
  sg_final_tags : List String

/-- The two hierarchy levels the loop of line 290 walks, project first. -/
structure OverridesDict where
  project : EntOverrides
  shot : EntOverrides

/-- The body of the `for delivery_type in ["review", "final"]` loop
(extract_color_transcode.py lines 296-332) for one entity level: clear the
accumulated entries whose key name ends with the delivery type when this is
a deeper level with a non-empty output set (lines 303-311), then add one
skeleton-based profile per output whose extension is supported. -/
def process_outputs (level : Nat) (dt : String) (lut : Bool)
    (outputs : List (String × String)) (tags : List String)
    (profiles : List (String × OutputProfile)) : List (String × OutputProfile) :=
  let cleared :=
    if level > 0 && !outputs.isEmpty then
      profiles.filter (fun p => !p.1.endsWith dt)
    else profiles
  outputs.foldl (fun acc nameExt =>
    if nameExt.2 ∈ supported_exts then
      setA acc nameExt.1
        { profile_output_skeleton with
            extension := nameExt.2
            tags := tags
            colorspace := if dt = "review" && lut then "input_process" else "delivery_frame" }
    else acc) cleared

/-- `get_sg_output_profiles` (extract_color_transcode.py lines 262-334):
`None` when the context carries no truthy `shotgridDeliveryOverrides`,
otherwise the accumulated profiles and the last-assigned
`sg_review_lut` (the shot's). -/
def get_sg_output_profiles (overrides : Option OverridesDict) :
    Option ((List (String × OutputProfile)) × Bool) :=
  match overrides with
  | none => none
  | some ov =>
    let afterProjReview := process_outputs 0 "review" ov.project.sg_review_lut
      ov.project.sg_review_output_type ov.project.sg_review_tags []
    let afterProjFinal := process_outputs 0 "final" ov.project.sg_review_lut
      ov.project.sg_final_output_type ov.project.sg_final_tags afterProjReview
    let afterShotReview := process_outputs 1 "review" ov.shot.sg_review_lut
      ov.shot.sg_review_output_type ov.shot.sg_review_tags afterProjFinal
    let afterShotFinal := process_outputs 1 "final" ov.shot.sg_review_lut
      ov.shot.sg_final_output_type ov.shot.sg_final_tags afterShotReview
    some (afterShotFinal, ov.shot.sg_review_lut)

/-- The profiles accumulated after the project level only (the state the
shot level starts from). -/
def project_level_profiles (ov : OverridesDict) : List (String × OutputProfile) :=
  process_outputs 0 "final" ov.project.sg_review_lut
    ov.project.sg_final_output_type ov.project.sg_final_tags
    (process_outputs 0 "review" ov.project.sg_review_lut
      ov.project.sg_review_output_type ov.project.sg_review_tags [])

/-- The guards of `ExtractOIIOTranscode.process` before the Alkemy-X
override block (extract_color_transcode.py lines 85-100). -/
structure ProcessEnv where
  profiles_present : Bool
  has_representations : Bool
  oiio_supported : Bool
  profile_found : Bool
  overrides : Option OverridesDict

/-- What the prologue of `process` did: returned early, or proceeded with
the unpacked Shotgrid profiles. -/
inductive ProcessOutcome where
  | returned
  | proceeded (sg : List (String × OutputProfile)) (lut : Bool)

/-- `ExtractOIIOTranscode.process` up to and including line 104:
`sg_outputs, lut_colorspace_review = self.get_sg_output_profiles(instance)`
unpacks the return value into two names, so when the method returns the
single value `None` (no truthy overrides in the context) the unpacking
raises `TypeError: cannot unpack non-iterable NoneType`. -/
def process_prologue (env : ProcessEnv) : Except PyErr ProcessOutcome :=
  if !env.profiles_present then .ok .returned
  else if !env.has_representations then .ok .returned
  else if !env.oiio_supported then .ok .returned
  else if !env.profile_found then .ok .returned
  else
    match get_sg_output_profiles env.overrides with
    | some slut => .ok (.proceeded slut.1 slut.2)
    | none => .error .typeError

/-- `\D+\d*$`: one or more non-digits, then zero or more digits, to the end
(once digits start they run to the end). -/
def digitsAtEnd : List Char → Bool
  | [] => true
  | c :: tl => if c.isDigit then tl.all Char.isDigit else digitsAtEnd tl

/-- Whether the characters after the second dot match `\D+\d*$`. -/
def dTailMatch (l : List Char) : Bool :=
  match l with
  | [] => false
  | c :: tl => !c.isDigit && digitsAtEnd tl

/-- Leftmost match of `clique.PATTERNS["frames"]`,
`\.(?P<index>(?P<padding>0*)\d+)\.\D+\d*$`. Modelled from the external
`clique` library: the search walks left to right; a match needs a dot, a
maximal non-empty digit run (the greedy `\d+` must be followed by the
literal dot, so shorter backtracked runs can never match), another dot and
a `\D+\d*$` tail. Returns `clique`'s `(head, index digits, tail)` split:
`head = item[:match.start('index')]` (so it keeps the first dot) and
`tail = item[match.end('index'):]` (so it keeps the second). -/
def framesSearch (acc : List Char) : List Char → Option (List Char × List Char × List Char)
  | [] => none
  | '.' :: rest =>
    let digits := rest.takeWhile Char.isDigit
    (if !digits.isEmpty then
      match rest.dropWhile Char.isDigit with
      | '.' :: tl2 =>
        if dTailMatch ('.' :: tl2).tail then
          some (acc.reverse ++ ['.'], digits, '.' :: tl2)
        else framesSearch ('.' :: acc) rest
      | _ => framesSearch ('.' :: acc) rest
    else framesSearch ('.' :: acc) rest)
  | c :: rest => framesSearch (c :: acc) rest

/-- `clique`'s padding: the length of the index when it has leading zeros,
else 0 (`assume_padded_when_ambiguous` only adjusts the padding attribute
afterwards and never the head, tail or indexes). -/
def padOf (digits : List Char) : Nat :=
  match digits with
  | '0' :: _ => digits.length
  | _ => 0

/-- Insert an index into a `clique` collection's sorted index set. -/
def insertSortedNat (n : Nat) : List Nat → List Nat
  | [] => [n]
  | m :: tl =>
    if n < m then n :: m :: tl
    else if n = m then m :: tl
    else m :: insertSortedNat n tl

/-- Add one matched file to the `(head, tail, padding)`-keyed collection
map, preserving first-occurrence key order as a Python dict does. -/
def addToGroups (key : List Char × List Char × Nat) (idx : Nat) :
    List ((List Char × List Char × Nat) × List Nat)
    → List ((List Char × List Char × Nat) × List Nat)
  | [] => [(key, [idx])]
  | (k, idxs) :: tl =>
    if k = key then (k, insertSortedNat idx idxs) :: tl
    else (k, idxs) :: addToGroups key idx tl

/-- The collections `clique.assemble(files, patterns=[PATTERNS["frames"]],
assume_padded_when_ambiguous=True)` returns: group the matched files by
`(head, tail, padding)` and keep the groups with at least `minimum_items=2`
members (the claims' inputs leave no cross-padding merging to do). -/
def clique_collections (files : List String) :
    List ((List Char × List Char × Nat) × List Nat) :=
  (files.foldl (fun gs f =>
    match framesSearch [] f.toList with
    | some hdt => addToGroups (hdt.1, hdt.2.2, padOf hdt.2.1) (readNat hdt.2.1) gs
    | none => gs) []).filter (fun g => 2 ≤ g.2.length)

/-- `ExtractOIIOTranscode._translate_to_sequence`
(extract_color_transcode.py lines 391-422): no collection returns the list
unchanged; more than one raises `ValueError`; exactly one collapses to the
single `head + "{first}-{last}#" + tail` token. -/
def translate_to_sequence (files : List String) : Except PyErr (List String) :=
  match clique_collections files with
  | [] => .ok files
  | [g] =>
    match g.2 with
    | [] => .ok files
    | f0 :: frest =>
      .ok [String.mk (g.1.1
        ++ natChars f0 ++ '-' :: natChars ((f0 :: frest).getLast (by simp))
        ++ '#' :: g.1.2.1)]
  | _ :: _ :: _ => .error .valueError

/-- Lookup of a top-level key in a JSON object value. -/
def jGet (v : JVal) (k : String) : Option JVal :=
  match v with
  | .jobj l => llookup k l
  | _ => none

theorem lookupA_setA_self {α : Type} (l : List (String × α)) (k : String) (v : α) :
    lookupA k (setA l k v) = some v := by
  induction l with
  | nil => simp [setA, lookupA]
  | cons p tl ih =>
    obtain ⟨k', v'⟩ := p
    by_cases hk : k' = k
    · simp [setA, lookupA, hk]
    · simp [setA, lookupA, hk, ih]

/-!
The claims.
-/

/-- C1: for every Shotgrid version whose cross-reference id passes the
falsy/`"-"` check, `deliver_version` raises `TypeError` at line 240
(`representation_names.append["thumbnail"]` subscripts the bound method
instead of calling it), so the hard-coded `"thumbnail"` is never appended
and representation lookup is never reached. -/
theorem deliver_version_thumbnail_line_raises (env : DeliverEnv) (sgv : SgVersion)
    (rnames : Option (List String)) (h : opIdMissing sgv.op_instance_id = false) :
    deliver_version env sgv rnames = .error .typeError := by
  simp [deliver_version, h]

/-- Witness for C1: a version with a well-formed `sg_op_instance_id`
reaches line 240 and the call errors with `TypeError`. -/
theorem deliver_version_thumbnail_line_raises_witness :
    opIdMissing (.jstr "64a1f4c2b7e8d90012345678") = false
    ∧ deliver_version ⟨([], none)⟩ ⟨101, "sh010_comp_v002", .jstr "64a1f4c2b7e8d90012345678"⟩ none
        = .error .typeError :=
  ⟨by decide,
   deliver_version_thumbnail_line_raises _ _ _ (by decide)⟩

/-- Oracle environment for the C2 counterexample: the first representation
validates and delivers cleanly, the second fails destination validation. -/
def envC2 : RepreEnv :=
  { checkDest := fun r =>
      if r.rid = "r2" then ([("Destination path exists", ["collision at /io/out/dst"])], "")
      else ([], "/io/out/dst")
    sourcesAndFrames := fun _ => [("/src/f.1001.exr", some "1001")]
    deliverSingle := fun _ _ => [] }

/-- C2 counterexample: with two representations where the first delivers
successfully and the second fails destination validation, the loop returns
only the second's failure items with `success=False` — the first sibling's
"Successful delivered representations" entry is discarded rather than
returned, refuting one success entry per delivered sibling. -/
theorem deliver_repres_abort_counterexample :
    deliver_repres envC2 [⟨"r1", "/pub/r1.exr"⟩, ⟨"r2", "/pub/r2.mov"⟩] []
      = ([("Destination path exists", ["collision at /io/out/dst"])], false)
    ∧ lookupA msgDelivered
        ([("Destination path exists", ["collision at /io/out/dst"])] : Report) = none := by
  constructor
  · rfl
  · rfl

/-- C2 amended: a destination-validation failure for one representation
aborts the whole remaining delivery of the version: `deliver_version`
returns exactly the failing representation's report items and `False`,
discarding everything accumulated for earlier siblings and never
processing later ones (sg_delivery.py lines 346-347). -/
theorem deliver_repres_abort (env : RepreEnv) (repre : RepreX) (rest : List RepreX)
    (r : Report) (h : (env.checkDest repre).1 ≠ []) :
    deliver_repres env (repre :: rest) r = ((env.checkDest repre).1, false) := by
  rcases hch : env.checkDest repre with ⟨rr, dest⟩
  rw [hch] at h
  simp only at h
  cases rr with
  | nil => exact absurd rfl h
  | cons a tl => simp [deliver_repres, hch]

/-- Witness for the C2 amended statement, at the counterexample's failing
representation alone. -/
theorem deliver_repres_abort_witness :
    (envC2.checkDest ⟨"r2", "/pub/r2.mov"⟩).1 ≠ []
    ∧ deliver_repres envC2 [⟨"r2", "/pub/r2.mov"⟩] []
        = ((envC2.checkDest ⟨"r2", "/pub/r2.mov"⟩).1, false) :=
  ⟨by decide, deliver_repres_abort envC2 _ [] [] (by decide)⟩

/-- C3: a version whose `sg_op_instance_id` is falsy or the placeholder
`"-"` makes `deliver_version` return `success=False` with one entry under
the exact key "Missing 'sg_op_instance_id' field on SG Versions", and the
playlist loop merges that report and continues with the remaining versions
instead of aborting the run. -/
theorem deliver_version_missing_id_continues (env : DeliverEnv) (penv : PlaylistEnv)
    (sgv : SgVersion) (rest : List SgVersion) (r : Report) (s : Bool)
    (rnames : Option (List String)) (h : opIdMissing sgv.op_instance_id = true) :
    deliver_version env sgv rnames
      = .ok ([(msgMissingId, [subMsgOf sgv.code sgv.idv])], false)
    ∧ deliver_playlist_loop penv (sgv :: rest) r s
      = deliver_playlist_loop penv rest
          (updateRep r [(msgMissingId, [subMsgOf sgv.code sgv.idv])]) false := by
  refine ⟨by simp [deliver_version, h], ?_⟩
  simp [deliver_playlist_loop, deliver_version, h, bind, Except.bind, Bool.and_false]

/-- Witness for C3 at a version whose id field holds the placeholder. -/
theorem deliver_version_missing_id_continues_witness :
    opIdMissing (.jstr "-") = true
    ∧ (deliver_version ⟨([], none)⟩ ⟨7, "sh020_comp_v001", .jstr "-"⟩ none
        = .ok ([(msgMissingId, [subMsgOf "sh020_comp_v001" 7])], false)
      ∧ deliver_playlist_loop ⟨true, "proj", [], fun _ => ⟨([], none)⟩, none⟩
          [⟨7, "sh020_comp_v001", .jstr "-"⟩] [] true
        = deliver_playlist_loop ⟨true, "proj", [], fun _ => ⟨([], none)⟩, none⟩
            [] (updateRep [] [(msgMissingId, [subMsgOf "sh020_comp_v001" 7])]) false) :=
  ⟨by decide,
   deliver_version_missing_id_continues _ _ _ _ _ _ _ (by decide)⟩

/-- C4 (code bug evidence): when the Avalon project lookup fails,
`deliver_playlist_id` returns `report_items[msg], False` (line 80) — the
fresh empty list the defaultdict creates for the message key — so the
first component of the documented `(report dict, success)` pair is a list,
contradicting the function's own docstring. -/
theorem deliver_playlist_id_project_missing_returns_list (env : PlaylistEnv)
    (h : env.projectFound = false) :
    deliver_playlist_id env = .ok (.rlist [], false) := by
  simp [deliver_playlist_id, h]

/-- Witness for C4 on a concrete playlist environment whose project is
missing from Avalon. -/
theorem deliver_playlist_id_project_missing_returns_list_witness :
    (⟨false, "ghost_project", [], fun _ => ⟨([], none)⟩, none⟩ : PlaylistEnv).projectFound = false
    ∧ deliver_playlist_id ⟨false, "ghost_project", [], fun _ => ⟨([], none)⟩, none⟩
        = .ok (.rlist [], false) :=
  ⟨rfl, deliver_playlist_id_project_missing_returns_list _ rfl⟩

/-- C5: with `force=False`, caller-supplied representation names all
present among the version's existing representations short-circuit
`republish_version`: it returns `success=True` with the "already exist"
report entry and performs no Deadline submission and no manifest write
(the effect list is empty). -/
theorem republish_version_short_circuit (env : RepubEnv) (sgv : SgVersion)
    (vd : VersionDoc) (exr : ExrRepre) (dts : List String)
    (n : String) (ns : List String)
    (h1 : opIdMissing sgv.op_instance_id = false)
    (h2 : env.version_doc = some vd)
    (h3 : env.exr_repre = some exr)
    (h4 : ∀ m ∈ n :: ns, m ∈ env.existing_rep_names) :
    republish_version env sgv dts (some (n :: ns)) false
      = (([(msgAlreadyExist dts, [subMsgOf sgv.code sgv.idv])], true), []) := by
  have hall : (republish_names env (some (n :: ns))).all
      (fun m => env.existing_rep_names.contains m) = true := by
    simp only [republish_names, List.all_eq_true]
    intro m hm
    exact List.elem_eq_true_of_mem (h4 m hm)
  simp [republish_version, h1, h2, h3, hall]
  intro x hx
  exact h4 x (by simpa [republish_names] using hx)

/-- Witness for C5: `["exr", "thumbnail"]` requested, both already
existing, `force=False`. -/
theorem republish_version_short_circuit_witness :
    (∀ m ∈ ["exr", "thumbnail"],
      m ∈ (["exr", "thumbnail", "h264"] : List String))
    ∧ republish_version
        { project_name := "proj", user := "alice", deadline_url := "http://dl:8082"
          session := [], version_doc := some ⟨5, ["render"], 1001, 1100, 0, 0, .jnull, .jint 24, .jstr "/src/scene.nk", .jnull⟩
          exr_repre := some ⟨"render", "renderMain", "sh010", "comp", "/p/r.1001.exr"⟩
          names_from_sg := ([], none), existing_rep_names := ["exr", "thumbnail", "h264"]
          expected_files := fun _ _ _ => [], get_representations := fun _ _ => []
          set_colorspace := fun r _ => r, metadata_path := fun _ => "/out/metadata.json"
          submit_result := .jstr "903412" }
        ⟨12, "sh010_comp_v005", .jstr "64a1f4c2b7e8d90012345678"⟩
        ["final"] (some ["exr", "thumbnail"]) false
      = (([(msgAlreadyExist ["final"], [subMsgOf "sh010_comp_v005" 12])], true), []) :=
  ⟨by decide,
   republish_version_short_circuit _ _ _ _ _ _ _ (by decide) rfl rfl (by decide)⟩

/-- C6 counterexample: collapsing `["a.1001.exr","a.1002.exr","a.1003.exr"]`
yields `"a.1001-1003#.exr"` — the collection head is `"a."` (clique's head
runs up to `match.start('index')`, which is after the dot), not `"a"`, so
the claimed token `"a1001-1003#.exr"` is wrong. -/
theorem translate_to_sequence_counterexample :
    translate_to_sequence ["a.1001.exr", "a.1002.exr", "a.1003.exr"]
      = .ok ["a.1001-1003#.exr"]
    ∧ ("a.1001-1003#.exr" : String) ≠ "a1001-1003#.exr" := by
  exact ⟨rfl, by decide⟩

/-- C6 amended: the collapse of the three-frame sequence produces the
single token `head ++ "1001-1003#" ++ tail` with head `"a."` and tail
`".exr"`. -/
theorem translate_to_sequence_example :
    translate_to_sequence ["a.1001.exr", "a.1002.exr", "a.1003.exr"]
      = .ok ["a.1001-1003#.exr"] := rfl

/-- Playlist environment for the C7 counterexample: two versions, both
with an unusable cross-reference id, reporting under the same message
key. -/
def penvC7 : PlaylistEnv :=
  ⟨true, "proj", [⟨1, "sh010_comp_v001", .jnull⟩, ⟨2, "sh020_comp_v001", .jstr "-"⟩],
   fun _ => ⟨([], none)⟩, none⟩

/-- C7 counterexample: after both versions of the playlist record a detail
under "Missing 'sg_op_instance_id' field on SG Versions", the final report
holds only the second version's detail — `report_items.update` replaced
the first version's list, so a recorded entry is missing from the final
report. -/
theorem deliver_playlist_id_update_discards :
    deliver_playlist_id penvC7
      = .ok (.rdict [(msgMissingId, [subMsgOf "sh020_comp_v001" 2])], false)
    ∧ subMsgOf "sh010_comp_v001" 1 ∉ [subMsgOf "sh020_comp_v001" 2] := by
  exact ⟨rfl, by decide⟩

/-- C7 amended: merging a per-version report into the run report follows
`dict.update` semantics — a message key carried by the merged report maps
afterwards to exactly the merged list, replacing (not extending) whatever
details earlier versions had recorded under that key; only keys the merged
report does not touch keep their earlier details. -/
theorem updateRep_replaces (r : Report) (k : String) (vs : List String) :
    lookupA k (updateRep r [(k, vs)]) = some vs := by
  simp only [updateRep, List.foldl_cons, List.foldl_nil]
  exact lookupA_setA_self r k vs

/-- C10: when profiles, representations, OIIO support and a matching
profile are all present but the context has no truthy
`shotgridDeliveryOverrides`, `get_sg_output_profiles` returns the single
value `None` and the two-name unpacking at line 104 of `process` raises
`TypeError`, so the documented no-overrides path cannot be taken without an
exception. -/
theorem process_prologue_unpack_raises (env : ProcessEnv)
    (h1 : env.profiles_present = true) (h2 : env.has_representations = true)
    (h3 : env.oiio_supported = true) (h4 : env.profile_found = true)
    (h5 : env.overrides = none) :
    process_prologue env = .error .typeError := by
  simp [process_prologue, h1, h2, h3, h4, h5, get_sg_output_profiles]

/-- Witness for C10 on a concrete publish instance whose context lacks the
overrides entry. -/
theorem process_prologue_unpack_raises_witness :
    (⟨true, true, true, true, none⟩ : ProcessEnv).overrides = none
    ∧ process_prologue ⟨true, true, true, true, none⟩ = .error .typeError :=
  ⟨rfl, process_prologue_unpack_raises _ rfl rfl rfl rfl rfl⟩

/-- The profiles `get_sg_output_profiles` accumulates after both levels. -/
def sg_profiles_result (ov : OverridesDict) : List (String × OutputProfile) :=
  process_outputs 1 "final" ov.shot.sg_review_lut ov.shot.sg_final_output_type
    ov.shot.sg_final_tags
    (process_outputs 1 "review" ov.shot.sg_review_lut ov.shot.sg_review_output_type
      ov.shot.sg_review_tags (project_level_profiles ov))

theorem get_sg_output_profiles_eq (ov : OverridesDict) :
    get_sg_output_profiles (some ov)
      = some (sg_profiles_result ov, ov.shot.sg_review_lut) := rfl

theorem lookupA_isSome_setA {α : Type} (l : List (String × α)) (k k' : String) (v : α)
    (h : (lookupA k l).isSome = true) : (lookupA k (setA l k' v)).isSome = true := by
  induction l with
  | nil => simp [lookupA] at h
  | cons p tl ih =>
    obtain ⟨k0, v0⟩ := p
    by_cases h0 : k0 = k'
    · subst h0
      by_cases hk : k0 = k
      · simp [setA, lookupA, hk]
      · simp [setA, lookupA, hk] at h ⊢
        exact h
    · by_cases hk : k0 = k
      · subst hk
        simp [setA, lookupA, h0]
      · simp [setA, lookupA, h0, hk] at h ⊢
        exact ih h

theorem lookupA_isSome_foldl {α β : Type} (k : String)
    (f : List (String × α) → β → List (String × α))
    (hf : ∀ acc b, (lookupA k acc).isSome = true → (lookupA k (f acc b)).isSome = true) :
    ∀ (l : List β) (acc : List (String × α)),
      (lookupA k acc).isSome = true → (lookupA k (l.foldl f acc)).isSome = true := by
  intro l
  induction l with
  | nil => intro acc h; simpa using h
  | cons b tl ih => intro acc h; exact ih _ (hf acc b h)

theorem lookupA_filter_not_suffix {α : Type} (l : List (String × α)) (dt k : String)
    (h : k.endsWith dt = false) :
    lookupA k (l.filter (fun p => !p.1.endsWith dt)) = lookupA k l := by
  induction l with
  | nil => rfl
  | cons p tl ih =>
    obtain ⟨k0, v0⟩ := p
    by_cases hk : k0 = k
    · subst hk
      simp [List.filter, lookupA, h]
    · by_cases hs : k0.endsWith dt
      · simp [List.filter, lookupA, hk, hs, ih]
      · simp [List.filter, lookupA, hk, hs, ih]

theorem present_process_outputs (level : Nat) (dt : String) (lut : Bool)
    (outs : List (String × String)) (tags : List String)
    (profs : List (String × OutputProfile)) (k : String)
    (h : (decide (level > 0) && !outs.isEmpty) = true → k.endsWith dt = false)
    (hp : (lookupA k profs).isSome = true) :
    (lookupA k (process_outputs level dt lut outs tags profs)).isSome = true := by
  unfold process_outputs
  have hstep : ∀ (acc : List (String × OutputProfile)) (ne : String × String),
      (lookupA k acc).isSome = true →
      (lookupA k (if ne.2 ∈ supported_exts then
        setA acc ne.1
          { profile_output_skeleton with
              extension := ne.2, tags := tags,
              colorspace := if dt = "review" && lut then "input_process" else "delivery_frame" }
        else acc)).isSome = true := by
    intro acc ne hacc
    by_cases he : ne.2 ∈ supported_exts
    · simpa [he] using lookupA_isSome_setA acc k ne.1 _ hacc
    · simpa [he] using hacc
  by_cases hc : (decide (level > 0) && !outs.isEmpty) = true
  · simp only [hc, if_true]
    exact lookupA_isSome_foldl k _ hstep outs _
      (by rw [lookupA_filter_not_suffix _ _ _ (h hc)]; exact hp)
  · simp only [hc, if_false, Bool.false_eq_true]
    exact lookupA_isSome_foldl k _ hstep outs _ hp

/-- C8 amended: the shot-level clear of `get_sg_output_profiles` is scoped
by output-type NAME suffix, not by the delivery type an entry came from:
with both shot-level output sets empty the project-level profiles pass
through unchanged, and a project-level entry survives into the result
whenever its name does not end with the delivery-type string of any
non-empty shot-level set (its value may still be overwritten by a
same-named shot output). -/
theorem get_sg_output_profiles_clear_by_suffix (ov : OverridesDict) :
    (ov.shot.sg_review_output_type = [] → ov.shot.sg_final_output_type = [] →
      sg_profiles_result ov = project_level_profiles ov)
    ∧ (∀ k, (lookupA k (project_level_profiles ov)).isSome = true →
        (ov.shot.sg_review_output_type ≠ [] → k.endsWith "review" = false) →
        (ov.shot.sg_final_output_type ≠ [] → k.endsWith "final" = false) →
        (lookupA k (sg_profiles_result ov)).isSome = true) := by
  constructor
  · intro h1 h2
    simp [sg_profiles_result, process_outputs, h1, h2]
  · intro k hk hrev hfin
    have step1 := present_process_outputs 1 "review" ov.shot.sg_review_lut
      ov.shot.sg_review_output_type ov.shot.sg_review_tags
      (project_level_profiles ov) k
      (by
        intro hc
        apply hrev
        intro he
        simp [he] at hc) hk
    exact present_process_outputs 1 "final" ov.shot.sg_review_lut
      ov.shot.sg_final_output_type ov.shot.sg_final_tags _ k
      (by
        intro hc
        apply hfin
        intro he
        simp [he] at hc) step1

/-- Overrides for the C8 counterexample: the project defines a review
output named `exr`, the shot a review output named `shotjpg`. -/
def ovC8 : OverridesDict :=
  { project := ⟨false, [("exr", "exr")], [], ["client_review"], []⟩
    shot := ⟨false, [("shotjpg", "jpg")], [], ["shot_tag"], []⟩ }

/-- C8 counterexample: the shot-level review output set is non-empty, yet
the project-level review entry `exr` is still present, unchanged, in the
result — because the clear only removes keys whose NAME ends with
"review", it does not clear and replace the project-level entries of that
delivery type as claimed. -/
theorem get_sg_output_profiles_counterexample :
    ovC8.shot.sg_review_output_type ≠ []
    ∧ lookupA "exr" (project_level_profiles ovC8)
        = some { profile_output_skeleton with
            extension := "exr", tags := ["client_review"], colorspace := "delivery_frame" }
    ∧ lookupA "exr" (sg_profiles_result ovC8)
        = some { profile_output_skeleton with
            extension := "exr", tags := ["client_review"], colorspace := "delivery_frame" } := by
  refine ⟨by decide, rfl, rfl⟩

/-- Overrides with no shot-level output sets, for the C8 witness. -/
def ovShotEmpty : OverridesDict :=
  { project := ⟨true, [("exr", "exr")], [("dpx", "dpx")], ["client_review"], ["client_final"]⟩
    shot := ⟨false, [], [], [], []⟩ }

/-- Witness for the C8 amended statement: empty shot sets pass the project
profiles through, and the surviving-key clause holds at `"exr"` under the
non-empty shot review set of the counterexample overrides. -/
theorem get_sg_output_profiles_clear_by_suffix_witness :
    sg_profiles_result ovShotEmpty = project_level_profiles ovShotEmpty
    ∧ (lookupA "exr" (sg_profiles_result ovC8)).isSome = true :=
  ⟨(get_sg_output_profiles_clear_by_suffix ovShotEmpty).1 rfl rfl,
   (get_sg_output_profiles_clear_by_suffix ovC8).2 "exr" (by decide)
     (fun _ => by decide) (fun h => absurd rfl h)⟩

theorem republish_pj_keys_nodup (env : RepubEnv) (sgv : SgVersion) (vd : VersionDoc)
    (exr : ExrRepre) (dts : List String) :
    ((republish_pj_pairs env sgv vd exr dts).map Prod.fst).Nodup := by
  cases ht : env.submit_result.truthy
  · simp [republish_pj_pairs, ht]
  · simp [republish_pj_pairs, ht]

theorem republish_pj_instances (env : RepubEnv) (sgv : SgVersion) (vd : VersionDoc)
    (exr : ExrRepre) (dts : List String) :
    llookup "instances" (republish_pj_pairs env sgv vd exr dts)
      = some (.jarr (republish_instances env sgv vd exr dts)) := by
  cases ht : env.submit_result.truthy <;>
    simp [republish_pj_pairs, ht, llookup]

/-- C9: for every run that reaches the submission/manifest stage, the
effects are exactly one Deadline submission and one write of
`json.dump(publish_job, ...)` to the metadata path; parsing the written
text back succeeds; the parsed document's `"instances"` entry is equal, as
a Python value (key order of dicts not withstanding), to the `instances`
list handed to the serialiser; and the parsed document's top-level keys are
exactly the twelve fixed ones, plus `deadline_publish_job_id` exactly when
the Deadline submission returned a truthy job id. -/
theorem republish_manifest_roundtrip (env : RepubEnv) (sgv : SgVersion)
    (vd : VersionDoc) (exr : ExrRepre) (dts : List String)
    (rnames : Option (List String)) (force : Bool)
    (h1 : opIdMissing sgv.op_instance_id = false)
    (h2 : env.version_doc = some vd)
    (h3 : env.exr_repre = some exr)
    (h4 : (!force && (republish_names env rnames).all
        (fun n => env.existing_rep_names.contains n)) = false)
    (h5 : jsafe (republish_publish_job env sgv vd exr dts) = true) :
    (republish_version env sgv dts rnames force).2
      = [Effect.submitDeadlineJob
           (env.metadata_path (.jobj (republish_instance_data1 env sgv vd exr dts))),
         Effect.writeFile
           (env.metadata_path (.jobj (republish_instance_data1 env sgv vd exr dts)))
           (dumps (republish_publish_job env sgv vd exr dts))]
    ∧ parseJson (dumps (republish_publish_job env sgv vd exr dts))
        = some (normJ (republish_publish_job env sgv vd exr dts))
    ∧ (∃ w, jGet (normJ (republish_publish_job env sgv vd exr dts)) "instances" = some w
        ∧ normJ w = normJ (.jarr (republish_instances env sgv vd exr dts)))
    ∧ (∀ a, a ∈ objKeys (normJ (republish_publish_job env sgv vd exr dts))
        ↔ (a ∈ ["asset", "frameStart", "frameEnd", "fps", "source", "user",
                "version", "intent", "comment", "job", "session", "instances"]
           ∨ (env.submit_result.truthy = true ∧ a = "deadline_publish_job_id"))) := by
  have h4' : ¬(force = false ∧ ∀ x ∈ republish_names env rnames,
      x ∈ env.existing_rep_names) := by
    rintro ⟨hf, hall⟩
    subst hf
    have htrue : (republish_names env rnames).all
        (fun n => env.existing_rep_names.contains n) = true := by
      rw [List.all_eq_true]
      intro x hx
      exact List.elem_eq_true_of_mem (hall x hx)
    rw [htrue] at h4
    simp at h4
  refine ⟨?_, parseJson_dumps _ h5, ?_, ?_⟩
  · simp [republish_version, h1, h2, h3, h4']
  · refine ⟨normJ (.jarr (republish_instances env sgv vd exr dts)), ?_, normJ_idem _⟩
    have hl := llookup_norm_jobj (republish_pj_pairs env sgv vd exr dts)
      (republish_pj_keys_nodup env sgv vd exr dts) "instances"
    rw [republish_pj_instances] at hl
    simpa [republish_publish_job, normJ, jGet] using hl
  · intro a
    rw [show normJ (republish_publish_job env sgv vd exr dts)
        = normJ (.jobj (republish_pj_pairs env sgv vd exr dts)) from rfl]
    rw [objKeys_norm_jobj]
    cases ht : env.submit_result.truthy
    · simp [republish_pj_pairs, ht]
    · simp [republish_pj_pairs, ht]
      tauto

/-- Concrete version document for the C9 witness. -/
def vdW : VersionDoc :=
  ⟨5, ["render"], 1001, 1100, 0, 0, .jnull, .jint 24, .jstr "/src/scene.nk", .jnull⟩

/-- Concrete `exr` representation document for the C9 witness. -/
def exrW : ExrRepre := ⟨"render", "renderMain", "sh010", "comp", "/p/r.1001.exr"⟩

/-- Concrete Shotgrid version for the C9 witness. -/
def sgvW : SgVersion := ⟨12, "sh010_comp_v005", .jstr "64a1f4c2b7e8d90012345678"⟩

/-- Concrete oracle environment for the C9 witness (`force=True` run). -/
def envW : RepubEnv :=
  { project_name := "proj", user := "alice", deadline_url := "http://dl:8082"
    session := [("AVALON_DB", .jstr "avalon")], version_doc := some vdW
    exr_repre := some exrW, names_from_sg := ([], none), existing_rep_names := []
    expected_files := fun _ _ _ => [], get_representations := fun _ _ => []
    set_colorspace := fun r _ => r, metadata_path := fun _ => "/out/metadata.json"
    submit_result := .jstr "903412" }

/-- Witness for C9 at a concrete forced republish run. -/
theorem republish_manifest_roundtrip_witness :
    opIdMissing sgvW.op_instance_id = false
    ∧ jsafe (republish_publish_job envW sgvW vdW exrW ["review"]) = true
    ∧ parseJson (dumps (republish_publish_job envW sgvW vdW exrW ["review"]))
        = some (normJ (republish_publish_job envW sgvW vdW exrW ["review"])) :=
  ⟨by decide, by decide,
   (republish_manifest_roundtrip envW sgvW vdW exrW ["review"] none true
     (by decide) rfl rfl rfl (by decide)).2.1⟩
